import Mathlib

/-!
Shallow embedding of the concurrent fetch-and-flatten pipeline of
`src/daoc_scraper/scraper.py` (functions `extract_fight_details`,
`fetch_details` / `_make_request_with_retries`, `fetch_all_data`,
`fetch_fight_data`), together with models of the two concurrency
primitives the pipeline composes: the moving-window rate limiter of the
external `limits` library and the counting semaphore of `asyncio`.

Conventions of the embedding:
- Python dicts that serve as records become structures; the fight-detail
  response dict becomes `Detail` with an optional `error` entry, because
  `fetch_all_data` branches on `detail.get("error")` being falsy.
- Network and event-loop effects become explicit inputs: one fetch task
  consumes a list of `Step`s (each step is a rate-limiter decision and,
  when the request is issued, the transport outcome), and emits a trace
  of `FetchEvent`s (request attempts and sleeps) next to its result.
- `asyncio.as_completed` delivers the per-identifier results in
  completion order, an arbitrary permutation of the launched tasks; the
  embedding takes that order as an explicit `sched` argument, and
  theorems that depend on it assume `sched` is a permutation of the
  identifier batch.
-/

/-- One participant of one side of a fight payload; the source reads only
its class code `participant["c"]`. -/
structure Participant where
  c : Int
deriving DecidableEq

/-- One side of a fight payload: `fight_json["a"]` / `fight_json["b"]`,
each a dict whose `"p"` entry is the participant list. -/
structure Side where
  p : List Participant
deriving DecidableEq

/-- A parsed fight-detail payload as `extract_fight_details` reads it:
`id` (set by the fetcher), date `s`, winning side `a`, losing side `b`. -/
structure FightJson where
  id : String
  s : String
  a : Side
  b : Side
deriving DecidableEq

/-- One output row of `extract_fight_details`: the source builds the four
parallel column lists `ids`, `class_names`, `wins`, `dates` (one entry per
participant, appended in iteration order) and zips them into a DataFrame;
here each row is one record. -/
structure Row where
  ID : String
  Class : String
  Win : Bool
  Date : String
deriving DecidableEq

/-- Python's `dict.get(key, default)` for the class-name mapping
(`id_to_class_name.get(class_id, "Unknown")`). -/
def dictGetD (m : List (Int × String)) (k : Int) (dflt : String) : String :=
  match m.find? (fun kv => kv.1 == k) with
  | some kv => kv.2
  | none => dflt

/-- `extract_fight_details` of `scraper.py`: iterates the winning side
`a` first (each participant yields a row with `Win = true`), then the
losing side `b` (`Win = false`); every row carries the payload's `id` and
date `s`, and the class name is looked up with default `"Unknown"`. The
source's four append loops build the rows in exactly this order. -/
def extract_fight_details (fight : FightJson) (id_to_class_name : List (Int × String)) :
    List Row :=
  let fight_date := fight.s
  (fight.a.p.map (fun participant =>
     { ID := fight.id
       Class := dictGetD id_to_class_name participant.c "Unknown"
       Win := true
       Date := fight_date }))
  ++ (fight.b.p.map (fun participant =>
     { ID := fight.id
       Class := dictGetD id_to_class_name participant.c "Unknown"
       Win := false
       Date := fight_date }))

/-- Body of a fight-detail HTTP response as parsed JSON: the fields
`extract_fight_details` later reads, plus an optional `"error"` entry the
remote service may include in an otherwise well-formed body. -/
structure ServerBody where
  error : Option String
  s : String
  a : Side
  b : Side
deriving DecidableEq

/-- One completed fetch-result dict as collected by `fetch_all_data`:
either a parsed response body with its `id` entry set by the fetcher
(`response_json["id"] = id`), or the synthetic terminal-failure dict
`{"id": id, "error": msg}` built after exhausting the retries. -/
inductive Detail where
  | payload (err : Option String) (fight : FightJson)
  | failed (id : String) (msg : String)
deriving DecidableEq

/-- `detail.get("error")`: the value of the `"error"` key, when present. -/
def detailError : Detail → Option String
  | .payload err _ => err
  | .failed _ msg => some msg

/-- `detail["id"]`. -/
def detailId : Detail → String
  | .payload _ fight => fight.id
  | .failed i _ => i

/-- Python truthiness of an optional string value: a missing key (`None`)
and the empty string are falsy, every other string is truthy. -/
def truthy : Option String → Bool
  | none => false
  | some s => !(s == "")

/-- Transport outcome of one issued request: a parsed body, or an
`aiohttp.ClientError` carrying a reason string. -/
inductive Resp where
  | ok (body : ServerBody)
  | clientError (reason : String)
deriving DecidableEq

/-- One interaction the environment offers a running fetch task: either
the rate limiter rejects the admission check (`limiter("api_request")`
returns `False`), or it grants it and the issued request resolves to a
`Resp`. -/
inductive Step where
  | reject
  | allow (resp : Resp)
deriving DecidableEq

/-- Observable events of one fetch task: issuing one HTTP request
attempt (`session.get`), or sleeping for a number of seconds
(`asyncio.sleep`). -/
inductive FetchEvent where
  | attempt
  | sleep (seconds : Nat)
deriving DecidableEq

/-- The `while` loop of `_make_request_with_retries` in `fetch_details`.
State carried across iterations: `retries` and `retry_wait` (the source's
mutable locals, initially `0` and `1`, with `max_retries = 5` hardcoded).
Per iteration: a rejected limiter check sleeps the *current* `retry_wait`
and re-enters the loop unchanged; a granted check issues the request
(one `attempt` event); a successful response returns the body with the
task's `id` written into it; a client error increments `retries`, and
either returns the synthetic failure dict (when `retries` reaches
`max_retries`) or sleeps `retry_wait` and doubles it. The function is
driven by the finite list of environment steps; an exhausted step list
(`none` result) models a task that has not completed. The loop is only
ever entered with `retries < 5`, so the source's trailing unreachable
`return {}` has no counterpart here. -/
def requestLoop (id : String) (retries retry_wait : Nat) :
    List Step → List FetchEvent × Option Detail
  | [] => ([], none)
  | Step.reject :: rest =>
      let r := requestLoop id retries retry_wait rest
      (FetchEvent.sleep retry_wait :: r.1, r.2)
  | Step.allow (Resp.ok body) :: _ =>
      ([FetchEvent.attempt],
       some (Detail.payload body.error
         { id := id, s := body.s, a := body.a, b := body.b }))
  | Step.allow (Resp.clientError _) :: rest =>
      if retries + 1 ≥ 5 then
        ([FetchEvent.attempt],
         some (Detail.failed id "Failed to fetch data after multiple attempts"))
      else
        let r := requestLoop id (retries + 1) (retry_wait * 2) rest
        (FetchEvent.attempt :: FetchEvent.sleep retry_wait :: r.1, r.2)

/-- `_make_request_with_retries` as entered by `fetch_details`:
`retries = 0`, `retry_wait = 1`. -/
def make_request_with_retries (id : String) (steps : List Step) :
    List FetchEvent × Option Detail :=
  requestLoop id 0 1 steps

/-- `True` exactly on `attempt` events. -/
def isAttemptEv : FetchEvent → Bool
  | .attempt => true
  | .sleep _ => false

/-- The sleep durations of a trace, in order. -/
def sleepsOf (evs : List FetchEvent) : List Nat :=
  evs.filterMap (fun e => match e with
    | .sleep d => some d
    | .attempt => none)

/-- Environment steps with the rate-limiter rejections removed. -/
def dropRejects (steps : List Step) : List Step :=
  steps.filter (fun s => !(s == Step.reject))

/-- The identifier batch actually launched by `fetch_all_data`: the ids
returned by `fetch_ids`, minus the already-known ones, then optionally
truncated to `max_details`. -/
def new_ids (all_ids known : List String) (max_details : Option Nat) : List String :=
  let ids := all_ids.filter (fun id => !(known.contains id))
  match max_details with
  | some n => ids.take n
  | none => ids

/-- The result of the fetch task launched for one identifier, under the
environment `env` assigning each identifier its interaction steps. -/
def fetchOutcome (env : String → List Step) (id : String) : Option Detail :=
  (make_request_with_retries id (env id)).2

/-- The `results` list of `fetch_all_data`: the per-identifier outcomes
appended in completion order. `sched` is the completion order delivered
by `asyncio.as_completed` — in any real run a permutation of the launched
batch; a task whose environment steps run out never completes and so
never contributes (in the source, `fetch_all_data` would not return). -/
def completedResults (env : String → List Step) (sched : List String) : List Detail :=
  sched.filterMap (fetchOutcome env)

/-- The value returned by `fetch_all_data`: the `successful_details`
comprehension keeps exactly the completed results whose `"error"` entry
is absent or falsy (`if not detail.get("error")`); everything else —
including every terminal-failure record — is dropped from the return
value. -/
def fetch_all_data (env : String → List Step) (sched : List String) : List Detail :=
  (completedResults env sched).filter (fun d => !(truthy (detailError d)))

/-- `True` exactly on the synthetic terminal-failure dicts. -/
def isFailedRecord : Detail → Bool
  | .failed _ _ => true
  | .payload _ _ => false

/-- `True` when a task's outcome is a terminal-failure record. -/
def isFailedOutcome : Option Detail → Bool
  | some d => isFailedRecord d
  | none => false

/-- Observable calls made by `fetch_fight_data` after the batch returns:
the single `fetch_daoc_config` request, and one flattening
(`extract_fight_details`) per successful payload. -/
inductive PipeEvent where
  | configFetch
  | flattenRecord (id : String)
deriving DecidableEq

/-- Flattening one collected result dict. Terminal-failure records carry
a truthy `"error"` and are filtered out before this point, so the
`failed` branch is unreachable in `fetch_fight_data`; it stands for the
`KeyError` the source would raise on such a dict. -/
def flattenDetail (m : List (Int × String)) : Detail → List Row
  | .payload _ fight => extract_fight_details fight m
  | .failed _ _ => []

/-- `fetch_fight_data` after the `asyncio.run(fetch_all_data(...))`
call: when the successful-details list is empty it returns an empty
DataFrame at once (no further calls); otherwise it fetches the class
configuration once, builds the id-to-class-name mapping, flattens every
successful payload with it, and concatenates the per-payload rows in
order. The second component is the trace of post-batch calls. -/
def fetch_fight_data (env : String → List Step) (sched : List String)
    (config : List (Int × String)) : List Row × List PipeEvent :=
  let data := fetch_all_data env sched
  if data.length = 0 then ([], [])
  else
    ((data.map (flattenDetail config)).flatten,
     PipeEvent.configFetch :: data.map (fun d => PipeEvent.flattenRecord (detailId d)))

/-! Concrete fixtures used by witness theorems. -/

/-- A concrete payload: winning side has class codes `1` and `99`, losing
side has class code `1`. -/
def fightA : FightJson :=
  { id := "f1", s := "2024-01-01", a := ⟨[⟨1⟩, ⟨99⟩]⟩, b := ⟨[⟨1⟩]⟩ }

/-- A concrete class map binding only code `1`. -/
def classMap0 : List (Int × String) := [(1, "Healer")]

/-- A well-formed response body with no `"error"` entry. -/
def bodyOk : ServerBody :=
  { error := none, s := "2024-01-01", a := ⟨[⟨1⟩]⟩, b := ⟨[⟨1⟩]⟩ }

/-- A well-formed response body carrying a truthy `"error"` entry. -/
def bodyErrField : ServerBody :=
  { error := some "oops", s := "2024-01-01", a := ⟨[⟨1⟩]⟩, b := ⟨[]⟩ }

/-- Environment where every request attempt fails with a client error,
so every fetch fails terminally. -/
def envFail : String → List Step :=
  fun _ => List.replicate 5 (Step.allow (Resp.clientError "connection reset"))

/-- Environment where the first request attempt succeeds. -/
def envOk : String → List Step :=
  fun _ => [Step.allow (Resp.ok bodyOk)]

/-- Environment where the request succeeds but the body carries a truthy
`"error"` entry. -/
def envErrField : String → List Step :=
  fun _ => [Step.allow (Resp.ok bodyErrField)]

/-- Index characterization of `extract_fight_details`: position `i`
holds the row of sideA participant `i` when `i` is below the sideA
count, and of sideB participant `i - a` otherwise. -/
theorem extract_getElem_eq (fight : FightJson) (m : List (Int × String)) (i : Nat) :
    (extract_fight_details fight m)[i]? =
      if i < fight.a.p.length then
        (fight.a.p[i]?).map (fun participant =>
          { ID := fight.id, Class := dictGetD m participant.c "Unknown",
            Win := true, Date := fight.s })
      else
        (fight.b.p[i - fight.a.p.length]?).map (fun participant =>
          { ID := fight.id, Class := dictGetD m participant.c "Unknown",
            Win := false, Date := fight.s }) := by
  simp only [extract_fight_details, List.getElem?_append, List.length_map,
    List.getElem?_map]

/-- Claim C2: for every raw detail payload with `a` sideA and `b` sideB
participants and any class map, flattening produces exactly `a + b`
rows: positions `0..a-1` hold the sideA rows with `Win = true` in sideA
list order, positions `a..a+b-1` hold the sideB rows with `Win = false`
in sideB list order, and every row carries the payload's id. -/
theorem C2_flatten_shape (fight : FightJson) (m : List (Int × String)) :
    (extract_fight_details fight m).length = fight.a.p.length + fight.b.p.length
    ∧ (∀ i, (extract_fight_details fight m)[i]? =
        if i < fight.a.p.length then
          (fight.a.p[i]?).map (fun participant =>
            { ID := fight.id, Class := dictGetD m participant.c "Unknown",
              Win := true, Date := fight.s })
        else
          (fight.b.p[i - fight.a.p.length]?).map (fun participant =>
            { ID := fight.id, Class := dictGetD m participant.c "Unknown",
              Win := false, Date := fight.s }))
    ∧ (∀ r ∈ extract_fight_details fight m, r.ID = fight.id) := by
  refine ⟨by simp [extract_fight_details], fun i => extract_getElem_eq fight m i, ?_⟩
  intro r hr
  simp only [extract_fight_details, List.mem_append, List.mem_map] at hr
  rcases hr with ⟨p, _, rfl⟩ | ⟨p, _, rfl⟩ <;> rfl

/-- Claim C2 witness at the concrete payload `fightA`. -/
theorem C2_flatten_shape_witness :
    (extract_fight_details fightA classMap0).length = 2 + 1
    ∧ ({ ID := "f1", Class := "Healer", Win := true, Date := "2024-01-01" } : Row).ID
        = fightA.id :=
  ⟨(C2_flatten_shape fightA classMap0).1,
   (C2_flatten_shape fightA classMap0).2.2
     { ID := "f1", Class := "Healer", Win := true, Date := "2024-01-01" } (by decide)⟩

/-- All participants of a payload, winning side first, in the iteration
order of `extract_fight_details`: participant `i` produces row `i`. -/
def participantsOf (fight : FightJson) : List Participant :=
  fight.a.p ++ fight.b.p

/-- Replace participant `i` (in `participantsOf` numbering) of a
payload: indices below the sideA count replace in sideA, the rest in
sideB. -/
def setParticipant (fight : FightJson) (i : Nat) (q : Participant) : FightJson :=
  if i < fight.a.p.length then
    { fight with a := ⟨fight.a.p.set i q⟩ }
  else
    { fight with b := ⟨fight.b.p.set (i - fight.a.p.length) q⟩ }

/-- A concrete payload with an unknown class code (`7`) on the *losing*
side: winning side has code `1`, losing side has codes `7` and `1`. -/
def fightB : FightJson :=
  { id := "f2", s := "2024-02-02", a := ⟨[⟨1⟩]⟩, b := ⟨[⟨7⟩, ⟨1⟩]⟩ }

/-- Claim C7: any participant, on either side, whose class code is
absent from the class map resolves to the placeholder label
`"Unknown"` (flattening is total, so nothing is raised), and the
participant affects only its own row: replacing it by any other
participant leaves every other row of the payload unchanged. -/
theorem C7_unknown_class (fight : FightJson) (m : List (Int × String)) (i : Nat)
    (hi : i < (participantsOf fight).length)
    (hc : m.find? (fun kv => kv.1 == ((participantsOf fight)[i]).c) = none)
    (q : Participant) :
    ((extract_fight_details fight m)[i]?.map Row.Class = some "Unknown")
    ∧ ∀ j, j ≠ i →
        (extract_fight_details (setParticipant fight i q) m)[j]?
          = (extract_fight_details fight m)[j]? := by
  have hpart : (participantsOf fight)[i]? = some ((participantsOf fight)[i]) :=
    List.getElem?_eq_getElem hi
  constructor
  · rw [extract_getElem_eq]
    by_cases h : i < fight.a.p.length
    · have ha : fight.a.p[i]? = some ((participantsOf fight)[i]) := by
        rw [← hpart]
        simp only [participantsOf, List.getElem?_append]
        rw [if_pos h]
      rw [if_pos h, ha]
      simp [dictGetD, hc]
    · have hb : fight.b.p[i - fight.a.p.length]?
          = some ((participantsOf fight)[i]) := by
        rw [← hpart]
        simp only [participantsOf, List.getElem?_append]
        rw [if_neg h]
      rw [if_neg h, hb]
      simp [dictGetD, hc]
  · intro j hj
    rw [extract_getElem_eq, extract_getElem_eq]
    by_cases h : i < fight.a.p.length
    · have hsp : setParticipant fight i q = { fight with a := ⟨fight.a.p.set i q⟩ } := by
        simp [setParticipant, h]
      rw [hsp]
      simp only [List.length_set]
      by_cases hja : j < fight.a.p.length
      · rw [if_pos hja, if_pos hja, List.getElem?_set_ne (Ne.symm hj)]
      · rw [if_neg hja, if_neg hja]
    · have hsp : setParticipant fight i q
          = { fight with b := ⟨fight.b.p.set (i - fight.a.p.length) q⟩ } := by
        simp [setParticipant, h]
      rw [hsp]
      by_cases hja : j < fight.a.p.length
      · rw [if_pos hja, if_pos hja]
      · rw [if_neg hja, if_neg hja,
          List.getElem?_set_ne (show i - fight.a.p.length ≠ j - fight.a.p.length by omega)]

/-- Claim C7 witness: in `fightA` the sideA participant at overall
index 1 has the unknown code `99`; in `fightB` the sideB participant at
overall index 1 has the unknown code `7`; both resolve to `"Unknown"`,
and replacing the unknown sideB participant of `fightB` leaves the row
of its other sideB participant (overall index 2) unchanged. -/
theorem C7_unknown_class_witness :
    ((extract_fight_details fightA classMap0)[1]?.map Row.Class = some "Unknown")
    ∧ ((extract_fight_details fightB classMap0)[1]?.map Row.Class = some "Unknown")
    ∧ (extract_fight_details (setParticipant fightB 1 ⟨1⟩) classMap0)[2]?
        = (extract_fight_details fightB classMap0)[2]? :=
  ⟨(C7_unknown_class fightA classMap0 1 (by decide) (by decide) ⟨1⟩).1,
   (C7_unknown_class fightB classMap0 1 (by decide) (by decide) ⟨1⟩).1,
   (C7_unknown_class fightB classMap0 1 (by decide) (by decide) ⟨1⟩).2 2 (by decide)⟩

/-- Claim C3 (amended): a fetch whose every request attempt fails
transiently performs exactly `max_retries = 5` request attempts, with no
sleep before the first attempt and a sleep of
`initialBackoff * multiplier ^ n = 1 * 2 ^ n` seconds between attempt
`n` and attempt `n + 1` (`n = 0,1,2,3`), and then yields the terminal
failure record carrying the identifier and the fixed message
`"Failed to fetch data after multiple attempts"` (not the last failure
reason). -/
theorem C3_exhausted_retries (id e1 e2 e3 e4 e5 : String) (rest : List Step) :
    ((make_request_with_retries id
        (Step.allow (Resp.clientError e1) :: Step.allow (Resp.clientError e2) ::
         Step.allow (Resp.clientError e3) :: Step.allow (Resp.clientError e4) ::
         Step.allow (Resp.clientError e5) :: rest)).1.countP isAttemptEv = 5)
    ∧ sleepsOf (make_request_with_retries id
        (Step.allow (Resp.clientError e1) :: Step.allow (Resp.clientError e2) ::
         Step.allow (Resp.clientError e3) :: Step.allow (Resp.clientError e4) ::
         Step.allow (Resp.clientError e5) :: rest)).1
        = (List.range 4).map (fun n => 1 * 2 ^ n)
    ∧ (make_request_with_retries id
        (Step.allow (Resp.clientError e1) :: Step.allow (Resp.clientError e2) ::
         Step.allow (Resp.clientError e3) :: Step.allow (Resp.clientError e4) ::
         Step.allow (Resp.clientError e5) :: rest)).1.head? = some FetchEvent.attempt
    ∧ (make_request_with_retries id
        (Step.allow (Resp.clientError e1) :: Step.allow (Resp.clientError e2) ::
         Step.allow (Resp.clientError e3) :: Step.allow (Resp.clientError e4) ::
         Step.allow (Resp.clientError e5) :: rest)).2
        = some (Detail.failed id "Failed to fetch data after multiple attempts") :=
  ⟨rfl, rfl, rfl, rfl⟩

/-- Claim C3 counterexample: with every attempt failing for the reason
`"timeout"`, the terminal failure record carries the fixed message, not
the last reason — the returned dict is not
`{"id": ..., "error": "timeout"}`. -/
theorem C3_last_reason_cex :
    (make_request_with_retries "f9"
        (List.replicate 5 (Step.allow (Resp.clientError "timeout")))).2
      = some (Detail.failed "f9" "Failed to fetch data after multiple attempts")
    ∧ (make_request_with_retries "f9"
        (List.replicate 5 (Step.allow (Resp.clientError "timeout")))).2
      ≠ some (Detail.failed "f9" "timeout") :=
  ⟨rfl, by decide⟩

/-- Rate-limiter rejections are invisible to the retry machinery: for
any retry state, removing the rejections from the environment changes
neither the number of request attempts issued nor the final outcome —
rejections only insert sleeps. -/
theorem requestLoop_dropRejects (id : String) (retries retry_wait : Nat)
    (steps : List Step) :
    ((requestLoop id retries retry_wait steps).1.countP isAttemptEv
       = (requestLoop id retries retry_wait (dropRejects steps)).1.countP isAttemptEv)
    ∧ (requestLoop id retries retry_wait steps).2
       = (requestLoop id retries retry_wait (dropRejects steps)).2 := by
  induction steps generalizing retries retry_wait with
  | nil => exact ⟨rfl, rfl⟩
  | cons s rest ih =>
    cases s with
    | reject =>
      have h : dropRejects (Step.reject :: rest) = dropRejects rest := by
        simp [dropRejects]
      rw [h]
      refine ⟨?_, ?_⟩
      · simpa [requestLoop, isAttemptEv] using (ih retries retry_wait).1
      · simpa [requestLoop] using (ih retries retry_wait).2
    | allow resp =>
      cases resp with
      | ok body =>
        have h : dropRejects (Step.allow (Resp.ok body) :: rest)
            = Step.allow (Resp.ok body) :: dropRejects rest := by
          simp [dropRejects]
        rw [h]
        exact ⟨rfl, rfl⟩
      | clientError e =>
        have h : dropRejects (Step.allow (Resp.clientError e) :: rest)
            = Step.allow (Resp.clientError e) :: dropRejects rest := by
          simp [dropRejects]
        rw [h]
        by_cases h5 : retries + 1 ≥ 5
        · simp [requestLoop, h5]
        · refine ⟨?_, ?_⟩
          · simpa [requestLoop, h5, isAttemptEv] using (ih (retries + 1) (retry_wait * 2)).1
          · simpa [requestLoop, h5] using (ih (retries + 1) (retry_wait * 2)).2

/-- Claim C6 (amended): a rejected rate-limiter admission makes the
fetcher sleep and re-check, and never increments the retry count or
consumes retry budget: deleting all rejections from the run changes
neither the number of request attempts nor the outcome. The rejection
delay, however, is the *current* `retry_wait` — shared with, and doubled
by, the exponential retry backoff — not a fixed delay of its own. -/
theorem C6_reject_budget (id : String) (steps : List Step) :
    ((make_request_with_retries id steps).1.countP isAttemptEv
       = (make_request_with_retries id (dropRejects steps)).1.countP isAttemptEv)
    ∧ (make_request_with_retries id steps).2
       = (make_request_with_retries id (dropRejects steps)).2 :=
  requestLoop_dropRejects id 0 1 steps

/-- Claim C6 counterexample: after one transient failure (which doubles
`retry_wait` to 2), a rate-limiter rejection sleeps 2 seconds — the
doubled backoff value, not the initial fixed 1-second delay, so the
rejection delay is not a distinct delay class. -/
theorem C6_fixed_delay_cex :
    (make_request_with_retries "f8"
        [Step.allow (Resp.clientError "reset"), Step.reject,
         Step.allow (Resp.ok bodyOk)]).1
      = [FetchEvent.attempt, FetchEvent.sleep 1, FetchEvent.sleep 2,
         FetchEvent.attempt]
    ∧ (2 : Nat) ≠ 1 :=
  ⟨rfl, by decide⟩

/-- A fetch result of the retry loop that is a terminal-failure record
always carries the task's identifier and the fixed failure message. -/
theorem requestLoop_failed_shape (id : String) (retries retry_wait : Nat)
    (steps : List Step) (i m : String)
    (h : (requestLoop id retries retry_wait steps).2 = some (Detail.failed i m)) :
    i = id ∧ m = "Failed to fetch data after multiple attempts" := by
  induction steps generalizing retries retry_wait with
  | nil => exact absurd h (by simp [requestLoop])
  | cons s rest ih =>
    cases s with
    | reject => exact ih retries retry_wait (by simpa [requestLoop] using h)
    | allow resp =>
      cases resp with
      | ok body => simp [requestLoop] at h
      | clientError e =>
        by_cases h5 : retries + 1 ≥ 5
        · simp [requestLoop, h5] at h
          exact ⟨h.1.symm, h.2.symm⟩
        · exact ih (retries + 1) (retry_wait * 2) (by simpa [requestLoop, h5] using h)

/-- The number of terminal-failure records among the completed results
equals the number of scheduled identifiers whose fetch failed
terminally. -/
theorem completedResults_countP_failed (env : String → List Step) (sched : List String) :
    (completedResults env sched).countP isFailedRecord
      = sched.countP (fun id => isFailedOutcome (fetchOutcome env id)) := by
  induction sched with
  | nil => rfl
  | cons id rest ih =>
    simp only [completedResults] at ih ⊢
    rw [List.filterMap_cons, List.countP_cons]
    cases h : fetchOutcome env id with
    | none => simp [h, isFailedOutcome, ih]
    | some d => simp [h, isFailedOutcome, List.countP_cons, ih]

/-- Claim C1 (amended): every identifier whose fetch fails terminally
contributes exactly one terminal-failure record to the *internal*
completed-results list of `fetch_all_data`, but the returned
`successful_details` list contains no failure record at all: the
failures are filtered out and the failure information is discarded
(only printed), never returned. -/
theorem C1_failures_filtered (env : String → List Step) (sched : List String) :
    ((completedResults env sched).countP isFailedRecord
       = sched.countP (fun id => isFailedOutcome (fetchOutcome env id)))
    ∧ ∀ d ∈ fetch_all_data env sched, isFailedRecord d = false := by
  refine ⟨completedResults_countP_failed env sched, ?_⟩
  intro d hd
  have hmem := (List.mem_filter.1 hd).1
  have hpred := (List.mem_filter.1 hd).2
  cases d with
  | payload err fight => rfl
  | failed i m =>
    rcases List.mem_filterMap.1 hmem with ⟨id, _, hout⟩
    have hshape := requestLoop_failed_shape id 0 1 (env id) i m hout
    rw [hshape.2] at hpred
    simp [truthy, detailError] at hpred

/-- Claim C1 witness: with one identifier failing terminally, the
internal count of failure records is that of failing identifiers; and a
successful payload is not a failure record. -/
theorem C1_failures_filtered_witness :
    ((completedResults envFail ["x"]).countP isFailedRecord
       = ["x"].countP (fun id => isFailedOutcome (fetchOutcome envFail id)))
    ∧ isFailedRecord (Detail.payload none
        { id := "y", s := "2024-01-01", a := ⟨[⟨1⟩]⟩, b := ⟨[⟨1⟩]⟩ }) = false :=
  ⟨(C1_failures_filtered envFail ["x"]).1,
   (C1_failures_filtered envOk ["y"]).2
     (Detail.payload none { id := "y", s := "2024-01-01", a := ⟨[⟨1⟩]⟩, b := ⟨[⟨1⟩]⟩ })
     (by decide)⟩

/-- Claim C1 counterexample: identifier `"x"` fails terminally; its
failure record is present in the internal results, yet the value
`fetch_all_data` returns is empty and the full pipeline returns no
failure information at all — the failure list the claim promises is
never returned. -/
theorem C1_failure_list_cex :
    new_ids ["x"] [] none = ["x"]
    ∧ completedResults envFail ["x"]
        = [Detail.failed "x" "Failed to fetch data after multiple attempts"]
    ∧ fetch_all_data envFail ["x"] = []
    ∧ fetch_fight_data envFail ["x"] classMap0 = ([], []) :=
  ⟨rfl, rfl, rfl, rfl⟩

/-- Claim C8 (amended): an empty identifier batch is a legal no-op — the
completion order is then empty and the pipeline returns empty rows and
makes no further calls. (The converse of the claim fails: see the
counterexample — zero rows with zero returned failures also occurs for a
nonempty batch whose every fetch fails, because failures are not
returned.) -/
theorem C8_empty_batch (known : List String) (max_details : Option Nat)
    (env : String → List Step) (config : List (Int × String)) (sched : List String)
    (hsched : sched.Perm (new_ids [] known max_details)) :
    fetch_fight_data env sched config = ([], []) := by
  have h1 : new_ids [] known max_details = [] := by
    cases max_details <;> simp [new_ids]
  rw [h1] at hsched
  have h2 : sched = [] := hsched.eq_nil
  subst h2
  rfl

/-- Claim C8 witness at the empty batch. -/
theorem C8_empty_batch_witness :
    fetch_fight_data envOk [] classMap0 = ([], []) :=
  C8_empty_batch [] none envOk classMap0 [] (by decide)

/-- Claim C8 counterexample: the nonempty batch `["z"]` whose single
fetch fails terminally also produces zero rows and zero returned
failures, so "0 rows and 0 failures" does not only occur for an empty
input batch. -/
theorem C8_zero_zero_cex :
    new_ids ["z"] [] none = ["z"]
    ∧ fetch_fight_data envFail ["z"] classMap0 = ([], []) :=
  ⟨rfl, rfl⟩

/-- Claim C9: a completed result is kept as successful iff its
`"error"` entry is absent or falsy; in particular an HTTP-successful,
well-parsed payload whose body carries a truthy `"error"` value is
excluded from the successful results. -/
theorem C9_error_key_classification (env : String → List Step) (sched : List String) :
    (∀ d, d ∈ fetch_all_data env sched ↔
        d ∈ completedResults env sched ∧ truthy (detailError d) = false)
    ∧ (∀ fight e, e ≠ "" →
        Detail.payload (some e) fight ∉ fetch_all_data env sched) := by
  constructor
  · intro d
    simp [fetch_all_data, List.mem_filter]
  · intro fight e he hmem
    have hpred := (List.mem_filter.1 hmem).2
    simp [truthy, detailError] at hpred
    exact he hpred

/-- Claim C9 witness: the identifier `"w"` fetches successfully but its
body carries `"error": "oops"`; the parsed payload is among the
completed results yet excluded from the successful ones. -/
theorem C9_error_key_classification_witness :
    Detail.payload (some "oops")
        { id := "w", s := "2024-01-01", a := ⟨[⟨1⟩]⟩, b := ⟨[]⟩ }
      ∈ completedResults envErrField ["w"]
    ∧ Detail.payload (some "oops")
        { id := "w", s := "2024-01-01", a := ⟨[⟨1⟩]⟩, b := ⟨[]⟩ }
      ∉ fetch_all_data envErrField ["w"] :=
  ⟨by decide,
   (C9_error_key_classification envErrField ["w"]).2
     { id := "w", s := "2024-01-01", a := ⟨[⟨1⟩]⟩, b := ⟨[]⟩ } "oops" (by decide)⟩

/-- Claim C10: when the batch yields no successful payload the pipeline
returns empty output at once and the class-name configuration is never
fetched; when at least one payload succeeded, the post-batch call trace
is exactly one configuration fetch followed by the flattening of every
successful payload — the configuration is fetched exactly once, before
any flattening. -/
theorem C10_config_once (env : String → List Step) (sched : List String)
    (config : List (Int × String)) :
    (fetch_all_data env sched = [] → fetch_fight_data env sched config = ([], []))
    ∧ (fetch_all_data env sched ≠ [] →
        (fetch_fight_data env sched config).2
          = PipeEvent.configFetch ::
              (fetch_all_data env sched).map
                (fun d => PipeEvent.flattenRecord (detailId d))
        ∧ PipeEvent.configFetch ∉
            (fetch_all_data env sched).map
              (fun d => PipeEvent.flattenRecord (detailId d))) := by
  constructor
  · intro h
    simp [fetch_fight_data, h]
  · intro h
    have hlen : ¬ (fetch_all_data env sched).length = 0 := by
      simpa [List.length_eq_zero] using h
    refine ⟨by simp [fetch_fight_data, hlen], ?_⟩
    intro hmem
    rcases List.mem_map.1 hmem with ⟨d, _, hd⟩
    exact PipeEvent.noConfusion hd

/-- Claim C10 witness: an all-failing batch fetches no configuration;
a batch with one successful payload fetches it exactly once, before the
single flattening. -/
theorem C10_config_once_witness :
    fetch_fight_data envFail ["v"] classMap0 = ([], [])
    ∧ (fetch_fight_data envOk ["u"] classMap0).2
        = PipeEvent.configFetch ::
            (fetch_all_data envOk ["u"]).map
              (fun d => PipeEvent.flattenRecord (detailId d)) :=
  ⟨(C10_config_once envFail ["v"] classMap0).1 (by decide),
   ((C10_config_once envOk ["u"] classMap0).2 (by decide)).1⟩

/-- Modelled from the spec: the `MovingWindowRateLimiter` used by
`fetch_fight_data` comes from the external `limits` library (its code is
not part of this repository); per the spec it keeps the timestamps of
recent admissions and counts those inside the trailing `W`-second
window. `slideCount W t log` is that count at attempt time `t`:
admission timestamps `s` with `t - W < s` (equivalently `t < s + W`),
for a log whose entries are all at most `t`. -/
def slideCount (W t : Nat) (log : List Nat) : Nat :=
  log.countP (fun s => decide (t < s + W))

/-- Modelled from the spec: one admission attempt at time `t` against
the moving-window limiter with budget `K` per `W` seconds — admit iff
fewer than `K` admissions lie in the trailing window, and record the new
timestamp on admission. -/
def limiterHit (K W : Nat) (log : List Nat) (t : Nat) : Bool × List Nat :=
  if slideCount W t log < K then (true, t :: log) else (false, log)

/-- The admissions of `log` lying inside the trailing `W`-second window
ending at time `tau`: timestamps `s` with `tau - W < s ≤ tau`. -/
def windowCount (W tau : Nat) (log : List Nat) : Nat :=
  log.countP (fun s => decide (tau < s + W) && decide (s ≤ tau))

/-- A sequence of admission attempts at the given times, each recorded
with its decision and the admission log at attempt time. -/
def runLimiter (K W : Nat) (log : List Nat) : List Nat → List (Nat × Bool × List Nat)
  | [] => []
  | t :: ts =>
      (t, (limiterHit K W log t).1, log) :: runLimiter K W (limiterHit K W log t).2 ts

/-- The admission log after a sequence of attempts. -/
def finalLog (K W : Nat) (log : List Nat) : List Nat → List Nat
  | [] => log
  | t :: ts => finalLog K W (limiterHit K W log t).2 ts

/-- One admission step preserves the window bound: if every trailing
window over `log` holds at most `K` admissions, all of `log` is at or
before `t`, and the admission at `t` saw fewer than `K` admissions in
its trailing window, then every trailing window over `t :: log` still
holds at most `K` admissions. -/
theorem windowCount_le_of_hit (K W t : Nat) (log : List Nat)
    (_hle : ∀ s ∈ log, s ≤ t) (hK : ∀ tau, windowCount W tau log ≤ K)
    (hadm : slideCount W t log < K) :
    ∀ tau, windowCount W tau (t :: log) ≤ K := by
  intro tau
  by_cases h : t ≤ tau
  · have hsub : windowCount W tau log ≤ slideCount W t log := by
      apply List.countP_mono_left
      intro s _ hps
      simp only [Bool.and_eq_true, decide_eq_true_eq] at hps
      exact decide_eq_true (lt_of_le_of_lt h hps.1)
    have hcons : windowCount W tau (t :: log) ≤ windowCount W tau log + 1 := by
      simp only [windowCount, List.countP_cons]
      split <;> omega
    omega
  · have hcons : windowCount W tau (t :: log) = windowCount W tau log := by
      simp only [windowCount, List.countP_cons]
      have : (decide (tau < t + W) && decide (t ≤ tau)) = false := by
        simp only [Bool.and_eq_false_iff, decide_eq_false_iff_not]
        right
        exact h
      rw [this]
      simp
    rw [hcons]
    exact hK tau

/-- The moving-window bound is an invariant of any attempt sequence run
in time order. -/
theorem finalLog_window_bound (K W : Nat) (ts : List Nat) (log : List Nat)
    (hts : List.Pairwise (· ≤ ·) ts)
    (hle : ∀ s ∈ log, ∀ t ∈ ts, s ≤ t)
    (hK : ∀ tau, windowCount W tau log ≤ K) :
    ∀ tau, windowCount W tau (finalLog K W log ts) ≤ K := by
  induction ts generalizing log with
  | nil => simpa [finalLog] using hK
  | cons t rest ih =>
    rw [List.pairwise_cons] at hts
    show ∀ tau, windowCount W tau (finalLog K W (limiterHit K W log t).2 rest) ≤ K
    by_cases hadm : slideCount W t log < K
    · rw [show (limiterHit K W log t).2 = t :: log by simp [limiterHit, hadm]]
      apply ih (t :: log) hts.2
      · intro s hs u hu
        rcases List.mem_cons.1 hs with rfl | hs2
        · exact hts.1 u hu
        · exact hle s hs2 u (List.mem_cons_of_mem t hu)
      · exact windowCount_le_of_hit K W t log
          (fun s hs => hle s hs t (List.mem_cons_self t rest)) hK hadm
    · rw [show (limiterHit K W log t).2 = log by simp [limiterHit, hadm]]
      apply ih log hts.2
      · intro s hs u hu
        exact hle s hs u (List.mem_cons_of_mem t hu)
      · exact hK

/-- Each attempt's decision is exactly the trailing-window test against
the admissions made so far. -/
theorem runLimiter_decision (K W : Nat) (ts : List Nat) (log : List Nat)
    (hts : List.Pairwise (· ≤ ·) ts)
    (hle : ∀ s ∈ log, ∀ t ∈ ts, s ≤ t) :
    ∀ e ∈ runLimiter K W log ts, (e.2.1 = true ↔ windowCount W e.1 e.2.2 < K) := by
  induction ts generalizing log with
  | nil =>
    intro e he
    simp [runLimiter] at he
  | cons t rest ih =>
    intro e he
    rw [List.pairwise_cons] at hts
    rcases List.mem_cons.1 he with rfl | he2
    · have heq : windowCount W t log = slideCount W t log := by
        apply List.countP_congr
        intro s hs
        have hst : s ≤ t := hle s hs t (List.mem_cons_self t rest)
        simp [hst]
      by_cases hadm : slideCount W t log < K <;>
        simp [limiterHit, hadm, heq]
    · refine ih (limiterHit K W log t).2 hts.2 ?_ e he2
      intro s hs u hu
      by_cases hadm : slideCount W t log < K
      · rw [show (limiterHit K W log t).2 = t :: log by simp [limiterHit, hadm]] at hs
        rcases List.mem_cons.1 hs with rfl | hs2
        · exact hts.1 u hu
        · exact hle s hs2 u (List.mem_cons_of_mem t hu)
      · rw [show (limiterHit K W log t).2 = log by simp [limiterHit, hadm]] at hs
        exact hle s hs u (List.mem_cons_of_mem t hu)

/-- Claim C4: for any time-ordered sequence of admission attempts
against the moving-window limiter started empty, at most `K` admissions
lie within any trailing `W`-second window of the final admission log,
and each attempt is admitted iff fewer than `K` admissions lay within
its trailing window at attempt time. -/
theorem C4_moving_window (K W : Nat) (ts : List Nat)
    (hts : List.Pairwise (· ≤ ·) ts) :
    (∀ tau, windowCount W tau (finalLog K W [] ts) ≤ K)
    ∧ ∀ e ∈ runLimiter K W [] ts, (e.2.1 = true ↔ windowCount W e.1 e.2.2 < K) :=
  ⟨finalLog_window_bound K W ts [] hts (by simp) (fun tau => by simp [windowCount]),
   runLimiter_decision K W ts [] hts (by simp)⟩

/-- Claim C4 witness at a concrete attempt sequence (`K = 2`, `W = 3`,
attempts at times 0, 1, 2, 5). -/
theorem C4_moving_window_witness :
    windowCount 3 2 (finalLog 2 3 [] [0, 1, 2, 5]) ≤ 2
    ∧ (((0 : Nat), true, ([] : List Nat)).2.1 = true ↔ windowCount 3 0 [] < 2) :=
  ⟨(C4_moving_window 2 3 [0, 1, 2, 5] (by decide)).1 2,
   (C4_moving_window 2 3 [0, 1, 2, 5] (by decide)).2 (0, true, []) (by decide)⟩

/-- How the guarded section of `fetch_details` exits: the awaited body
returns normally, raises, or the task is cancelled. Python's
`async with semaphore:` releases the slot on each of these paths. -/
inductive BodyExit where
  | success
  | failure
  | cancelled
deriving DecidableEq

/-- Lifecycle of one fetch task with respect to the concurrency gate of
`fetch_all_data` (`asyncio.Semaphore(concurrent_requests)`): not yet
admitted, holding a slot (inside `async with semaphore`), or finished
having released its slot on exit. -/
inductive SlotState where
  | idle
  | holding
  | finished (how : BodyExit)
deriving DecidableEq

/-- The number of simultaneously held slots: tasks currently inside the
guarded section. -/
def heldCount (tasks : List SlotState) : Nat :=
  tasks.countP (fun s => s == SlotState.holding)

/-- One cooperative-scheduler step of a batch run. `acquire` models
`semaphore.acquire` at the entry of `async with`: it can only proceed
while fewer than `maxC` slots are held (otherwise the task stays
suspended). `leave` models the exit of the guarded section on any path
(normal return, exception, or cancellation), which releases the slot. -/
inductive GateStep (maxC : Nat) : List SlotState → List SlotState → Prop
  | acquire (tasks : List SlotState) (i : Nat)
      (h : tasks[i]? = some SlotState.idle)
      (hfree : heldCount tasks < maxC) :
      GateStep maxC tasks (tasks.set i SlotState.holding)
  | leave (tasks : List SlotState) (i : Nat) (how : BodyExit)
      (h : tasks[i]? = some SlotState.holding) :
      GateStep maxC tasks (tasks.set i (SlotState.finished how))

/-- States reachable during a batch run over `n` fetch tasks, starting
with all tasks not yet admitted. -/
def GateReach (maxC n : Nat) (s : List SlotState) : Prop :=
  Relation.ReflTransGen (GateStep maxC) (List.replicate n SlotState.idle) s

/-- Exchanging one list entry exchanges its contribution to `countP`. -/
theorem countP_set_exchange (p : SlotState → Bool) (l : List SlotState) (i : Nat)
    (x a : SlotState) (h : l[i]? = some x) :
    (l.set i a).countP p + (if p x then 1 else 0)
      = l.countP p + (if p a then 1 else 0) := by
  induction l generalizing i with
  | nil => simp at h
  | cons y rest ih =>
    cases i with
    | zero =>
      simp only [List.getElem?_cons_zero, Option.some.injEq] at h
      subst h
      simp only [List.set, List.countP_cons]
      omega
    | succ j =>
      simp only [List.getElem?_cons_succ] at h
      simp only [List.set, List.countP_cons]
      have := ih j h
      omega

/-- One scheduler step keeps the held-slot count within the bound. -/
theorem heldCount_step (maxC : Nat) (s1 s2 : List SlotState)
    (hstep : GateStep maxC s1 s2) (h1 : heldCount s1 ≤ maxC) :
    heldCount s2 ≤ maxC := by
  cases hstep with
  | acquire i hi hfree =>
    have hx := countP_set_exchange (fun s => s == SlotState.holding) s1 i
      SlotState.idle SlotState.holding hi
    simp only [heldCount] at hfree ⊢
    simp at hx
    omega
  | leave i how hi =>
    have hx := countP_set_exchange (fun s => s == SlotState.holding) s1 i
      SlotState.holding (SlotState.finished how) hi
    simp only [heldCount] at h1 ⊢
    simp at hx
    omega

/-- Claim C5: in every state reachable during a batch run, the number of
simultaneously held slots never exceeds `maxC`, and since a slot is
released on every exit path of the guarded section, a state in which no
task is inside the guarded section holds no slots — nothing leaks. -/
theorem C5_gate_bound (maxC n : Nat) (s : List SlotState) (h : GateReach maxC n s) :
    heldCount s ≤ maxC
    ∧ ((∀ x ∈ s, x ≠ SlotState.holding) → heldCount s = 0) := by
  constructor
  · induction h with
    | refl =>
      have : heldCount (List.replicate n SlotState.idle) = 0 := by
        apply List.countP_eq_zero.2
        intro x hx
        rw [List.eq_of_mem_replicate hx]
        simp
      omega
    | tail hab hbc ih => exact heldCount_step maxC _ _ hbc ih
  · intro hall
    apply List.countP_eq_zero.2
    intro x hx
    simpa using hall x hx

/-- Claim C5 witness: with one slot and two tasks, the state where the
first task holds the slot is reachable with one held slot; the state
where both tasks finished (one normally, one by exception) is reachable
with zero held slots. -/
theorem C5_gate_bound_witness :
    heldCount [SlotState.holding, SlotState.idle] ≤ 1
    ∧ heldCount [SlotState.finished BodyExit.success,
        SlotState.finished BodyExit.failure] = 0 :=
  ⟨(C5_gate_bound 1 2 [SlotState.holding, SlotState.idle]
      (Relation.ReflTransGen.single
        (GateStep.acquire [SlotState.idle, SlotState.idle] 0 rfl (by decide)))).1,
   (C5_gate_bound 1 2
      [SlotState.finished BodyExit.success, SlotState.finished BodyExit.failure]
      (Relation.ReflTransGen.tail
        (Relation.ReflTransGen.tail
          (Relation.ReflTransGen.tail
            (Relation.ReflTransGen.single
              (GateStep.acquire [SlotState.idle, SlotState.idle] 0 rfl (by decide)))
            (GateStep.leave [SlotState.holding, SlotState.idle] 0 BodyExit.success rfl))
          (GateStep.acquire [SlotState.finished BodyExit.success, SlotState.idle] 1 rfl
            (by decide)))
        (GateStep.leave [SlotState.finished BodyExit.success, SlotState.holding] 1
          BodyExit.failure rfl))).2
     (by decide)⟩
